import Mathlib

/-!
# Verification of the country-map record application (`src/src/App.jsx`)

Shallow embedding of the client logic of the single-page application:
the country resolver, the record store (load + filter-by-country view)
and the upload pipeline (`handleUpload`), together with theorems
settling the specification claims.

Network effects are modelled by passing the outcomes of the (at most
four) sequential backend calls as explicit data (`Net`), and recording
the calls the code actually issues as a trace (`List NetOp`).
-/

set_option autoImplicit false

namespace FabiansWelt

/-- A browser `File` as the code uses it: only its `name` is read. -/
structure JsFile where
  name : String
  deriving DecidableEq, Repr

/-- The active country selection `{ code, name }` (`App.jsx` line 59/178). -/
structure Country where
  code : String
  name : String
  deriving DecidableEq, Repr

/-- One persisted row of the `entries` table (schema documented in the
SQL comment of `App.jsx`, lines 13-21).  `created_at` is modelled as a
`Nat` timestamp. -/
structure Entry where
  id : String
  country_code : String
  title : Option String
  info : Option String
  image_url : Option String
  audio_url : Option String
  created_at : Nat
  deriving DecidableEq, Repr

/-- The object literal passed to `supabase.from("entries").insert(...)`
(`App.jsx` lines 117-123).  Note: it carries **no** `id` field. -/
structure InsertRow where
  country_code : String
  title : Option String
  info : Option String
  image_url : String
  audio_url : String
  deriving DecidableEq, Repr

/-- Modelled from the SQL schema documented in `App.jsx` lines 13-21
(the hosted table itself is not part of `src/`): inserting a row that
carries no `id` lets the column default `gen_random_uuid()` assign the
primary key, and `created_at` defaults to `now()`. -/
def insertEntry (row : InsertRow) (serverId : String) (now : Nat) : Entry :=
  { id := serverId
    country_code := row.country_code
    title := row.title
    info := row.info
    image_url := some row.image_url
    audio_url := some row.audio_url
    created_at := now }

/-- Network operations the client can issue, as a trace alphabet.
`deleteObject` exists in the storage API but is checked to never occur
in any trace of this code. -/
inductive NetOp where
  | uploadImage (path : String)
  | uploadAudio (path : String)
  | insertRow (row : InsertRow)
  | selectEntries
  | deleteObject (bucket : String) (path : String)
  deriving DecidableEq, Repr

/-! ## Country resolver (`App.jsx` lines 162-171) -/

/-- The property bag of a map feature; absent keys are `none`. -/
structure GeoProps where
  ISO_A2_EH : Option String
  ISO_A2 : Option String
  NAME : Option String
  ADMIN : Option String
  NAME_LONG : Option String
  deriving DecidableEq, Repr

/-- JavaScript `a || b` for a possibly-absent string `a`: the value when
present and non-empty (truthy), otherwise the fallback. -/
def jsOr (v : Option String) (dflt : String) : String :=
  match v with
  | some s => if s = "" then dflt else s
  | none => dflt

/-- `geo.properties.ISO_A2_EH || geo.properties.ISO_A2 || ""`
(`App.jsx` lines 162-165). -/
def resolveCode (p : GeoProps) : String :=
  jsOr p.ISO_A2_EH (jsOr p.ISO_A2 "")

/-- `NAME || ADMIN || NAME_LONG || "Unbenannt"` (`App.jsx` lines 167-171). -/
def resolveName (p : GeoProps) : String :=
  jsOr p.NAME (jsOr p.ADMIN (jsOr p.NAME_LONG "Unbenannt"))

/-- Spec-side reference function: first non-empty value among an ordered
list of candidate keys, with a fixed fallback (spec §4.1, §9). -/
def firstNonEmpty : List (Option String) → String → String
  | [], dflt => dflt
  | v :: rest, dflt =>
    match v with
    | some s => if s = "" then firstNonEmpty rest dflt else s
    | none => firstNonEmpty rest dflt

/-! ## `safeName` (`App.jsx` lines 52-54)

`name.toLowerCase().replace(/[^a-z0-9-_\.]/g, "-")`: lowercase, then
replace every character outside `[a-z0-9-_.]` with `-`.  Case folding
is modelled per character with `Char.toLower`. -/

/-- Membership in the character class `[a-z0-9-_.]` of the regex. -/
def allowedChar (c : Char) : Bool :=
  (97 ≤ c.toNat && c.toNat ≤ 122) || (48 ≤ c.toNat && c.toNat ≤ 57) ||
    c == '-' || c == '_' || c == '.'

/-- One step of `replace(/[^a-z0-9-_\.]/g, "-")`. -/
def safeChar (c : Char) : Char :=
  if allowedChar c then c else '-'

/-- `safeName` (`App.jsx` lines 52-54): lowercase the string, then
replace every disallowed character with `-`. -/
def safeName (name : String) : String :=
  String.mk ((name.data.map Char.toLower).map safeChar)

/-! ## File-extension helper

`file.name.split('.').pop() || dflt` (`App.jsx` lines 105 and 112):
split the file name on `.`, take the last segment, and use the default
only when that segment is falsy (the empty string). -/

/-- JavaScript `String.prototype.split('.')` on a character list:
always returns at least one (possibly empty) segment. -/
def splitDot : List Char → List (List Char)
  | [] => [[]]
  | c :: cs =>
    match splitDot cs with
    | [] => [[]]
    | seg :: rest =>
      if c = '.' then [] :: seg :: rest else (c :: seg) :: rest

/-- `name.split('.').pop() || dflt`. -/
def extOrDefault (name : String) (dflt : String) : String :=
  let seg := (splitDot name.data).getLastD []
  if seg.isEmpty then dflt else String.mk seg

/-! ## Record store: filtered view (`App.jsx` lines 85-88) -/

/-- `countryEntries` (`App.jsx` lines 85-88): `[]` when no country is
active, otherwise `entries.filter(e => e.country_code === activeCountry.code)`. -/
def countryEntries (activeCountry : Option Country) (entries : List Entry) : List Entry :=
  match activeCountry with
  | none => []
  | some c => entries.filter (fun e => e.country_code == c.code)

/-! ## Record store: initial load (`App.jsx` lines 69-82) -/

/-- The `{ data, error }` pair returned by
`supabase.from("entries").select("*").order("created_at", ...)`. -/
structure QueryResult where
  data : Option (List Entry)
  error : Option String
  deriving Repr

/-- The state the `load` effect touches. -/
structure LoadState where
  entries : List Entry
  loading : Bool
  deriving DecidableEq, Repr

/-- The `load` function of the initial `useEffect` (`App.jsx` lines
71-79): bail out (clearing `loading`) when the client is not
configured; otherwise log the error if any, set
`entries := data || []`, and clear `loading`.  The returned list is the
console-error log.  The function is total: no exception propagates. -/
def load (configured : Bool) (res : QueryResult) (s : LoadState) : LoadState × List String :=
  if configured then
    ({ s with entries := res.data.getD [], loading := false },
      match res.error with
      | some msg => [msg]
      | none => [])
  else
    ({ s with loading := false }, [])

/-- Descending `created_at` order between entries. -/
def createdDesc (a b : Entry) : Prop := b.created_at ≤ a.created_at

instance : DecidableRel createdDesc :=
  fun a b => Nat.decLe b.created_at a.created_at

instance : IsTotal Entry createdDesc :=
  ⟨fun a b => Nat.le_total b.created_at a.created_at⟩

instance : IsTrans Entry createdDesc :=
  ⟨fun _ _ _ hab hbc => Nat.le_trans hbc hab⟩

/-- Modelled from the backend's query semantics (the hosted database is
not part of `src/`): `select * order by created_at descending` returns
the table's rows sorted by `created_at`, newest first. -/
def orderByCreatedAtDesc (table : List Entry) : List Entry :=
  List.insertionSort createdDesc table

/-! ## Upload pipeline (`handleUpload`, `App.jsx` lines 90-137) -/

/-- Outcomes of the backend calls the pipeline may issue, passed in as
data: an upload or insert either succeeds (`none`) or fails with an
error message, `publicUrl` is `getPublicUrl` (bucket, path ↦ URL), and
`refreshData`/`refreshErr` are the `{ data, error }` of the final
refresh select. -/
structure Net where
  imgUploadErr : Option String
  audUploadErr : Option String
  insertErr : Option String
  refreshData : Option (List Entry)
  refreshErr : Option String
  publicUrl : String → String → String

/-- The component state `handleUpload` reads and writes. -/
structure UploadState where
  title : String
  info : String
  imageFile : Option JsFile
  audioFile : Option JsFile
  activeCountry : Option Country
  entries : List Entry
  showForm : Bool
  uploading : Bool
  error : String
  deriving DecidableEq, Repr

/-- `"Supabase ist nicht konfiguriert."` (`App.jsx` line 93). -/
def msgNotConfigured : String := "Supabase ist nicht konfiguriert."

/-- `"Bitte zuerst ein Land auswählen."` (`App.jsx` line 94). -/
def msgNoCountry : String := "Bitte zuerst ein Land auswählen."

/-- `"Bitte Bild (2:3) und MP3 auswählen."` (`App.jsx` line 95). -/
def msgMissingFiles : String := "Bitte Bild (2:3) und MP3 auswählen."

/-- `"Upload fehlgeschlagen."` (`App.jsx` line 133). -/
def msgUploadFailed : String := "Upload fehlgeschlagen."

/-- `err.message || "Upload fehlgeschlagen."` (`App.jsx` line 133). -/
def surfaced (m : String) : String :=
  if m = "" then msgUploadFailed else m

/-- `safeName(`${activeCountry.code}-${title || "upload"}-${id}`)`
(`App.jsx` line 100). -/
def baseNameOf (code title uuid : String) : String :=
  safeName (code ++ "-" ++ (if title = "" then "upload" else title) ++ "-" ++ uuid)

/-- The image object name `` `${base}.${imageFile.name.split('.').pop() || 'jpg'}` ``
(`App.jsx` line 105). -/
def imgObjectPath (code title uuid imgName : String) : String :=
  baseNameOf code title uuid ++ "." ++ extOrDefault imgName "jpg"

/-- The audio object name `` `${base}.${audioFile.name.split('.').pop() || 'mp3'}` ``
(`App.jsx` line 112). -/
def audObjectPath (code title uuid audName : String) : String :=
  baseNameOf code title uuid ++ "." ++ extOrDefault audName "mp3"

/-- The row handed to `insert` (`App.jsx` lines 117-123), with the two
public URLs resolved by `getPublicUrl`. -/
def rowOf (net : Net) (country : Country) (title info uuid imgName audName : String) : InsertRow :=
  { country_code := country.code
    title := if title = "" then none else some title
    info := if info = "" then none else some info
    image_url := net.publicUrl "images" (imgObjectPath country.code title uuid imgName)
    audio_url := net.publicUrl "audio" (audObjectPath country.code title uuid audName) }

/-- The `try` block of `handleUpload` (`App.jsx` lines 98-130), entered
after the preconditions passed with country `country` and files
`img`/`aud`, with `setUploading(true)` already applied; the `catch` and
`finally` effects (set the error message, clear `uploading`) are folded
into each failing branch. -/
def uploadSteps (uuid : String) (net : Net) (country : Country) (img aud : JsFile)
    (s : UploadState) : UploadState × List NetOp :=
  let imgPath := imgObjectPath country.code s.title uuid img.name
  match net.imgUploadErr with
  | some m => ({ s with error := surfaced m, uploading := false }, [.uploadImage imgPath])
  | none =>
    let audPath := audObjectPath country.code s.title uuid aud.name
    match net.audUploadErr with
    | some m =>
      ({ s with error := surfaced m, uploading := false },
        [.uploadImage imgPath, .uploadAudio audPath])
    | none =>
      let row := rowOf net country s.title s.info uuid img.name aud.name
      match net.insertErr with
      | some m =>
        ({ s with error := surfaced m, uploading := false },
          [.uploadImage imgPath, .uploadAudio audPath, .insertRow row])
      | none =>
        ({ s with title := "", info := "", imageFile := none, audioFile := none,
                  entries := net.refreshData.getD [], showForm := false,
                  uploading := false },
          [.uploadImage imgPath, .uploadAudio audPath, .insertRow row, .selectEntries])

/-- `handleUpload` (`App.jsx` lines 90-137): clear the error text, check
the three preconditions in order (client configured, country selected,
both files present), then run the sequential upload steps.  Returns the
state after the handler and the trace of network calls issued. -/
def handleUpload (configured : Bool) (uuid : String) (net : Net) (s : UploadState) :
    UploadState × List NetOp :=
  let s0 := { s with error := "" }
  if !configured then ({ s0 with error := msgNotConfigured }, [])
  else
    match s0.activeCountry with
    | none => ({ s0 with error := msgNoCountry }, [])
    | some country =>
      match s0.imageFile, s0.audioFile with
      | some img, some aud =>
        uploadSteps uuid net country img aud { s0 with uploading := true }
      | _, _ => ({ s0 with error := msgMissingFiles }, [])

/-! ## Concrete fixtures used by witnesses and counterexamples -/

/-- A backend in which every call succeeds and the refresh select
returns no data. -/
def netSuccess : Net :=
  { imgUploadErr := none, audUploadErr := none, insertErr := none,
    refreshData := none, refreshErr := none,
    publicUrl := fun bucket path => "https://example.com/" ++ bucket ++ "/" ++ path }

/-- Form state: Japan selected, image `photo.png`, audio `song.mp3`,
title `Song`. -/
def formJP : UploadState :=
  { title := "Song", info := "", imageFile := some { name := "photo.png" },
    audioFile := some { name := "song.mp3" },
    activeCountry := some { code := "JP", name := "Japan" },
    entries := [], showForm := true, uploading := false, error := "" }

/-- The same form with an image file whose name has no `.` at all. -/
def formNoDot : UploadState :=
  { formJP with imageFile := some { name := "photo" } }

/-! ## Case equations for `handleUpload` -/

lemma surfaced_ne_empty (m : String) : surfaced m ≠ "" := by
  unfold surfaced
  split
  · decide
  · assumption

lemma handleUpload_notConfigured (uuid : String) (net : Net) (s : UploadState) :
    handleUpload false uuid net s = ({ s with error := msgNotConfigured }, []) := rfl

lemma handleUpload_noCountry (uuid : String) (net : Net) (s : UploadState)
    (h : s.activeCountry = none) :
    handleUpload true uuid net s = ({ s with error := msgNoCountry }, []) := by
  simp [handleUpload, h]

lemma handleUpload_missingFile (uuid : String) (net : Net) (s : UploadState) (c : Country)
    (hc : s.activeCountry = some c) (h : s.imageFile = none ∨ s.audioFile = none) :
    handleUpload true uuid net s = ({ s with error := msgMissingFiles }, []) := by
  rcases h with h | h
  · cases ha : s.audioFile <;> simp [handleUpload, hc, h, ha]
  · cases hi : s.imageFile <;> simp [handleUpload, hc, h, hi]

lemma handleUpload_go (uuid : String) (net : Net) (s : UploadState) (c : Country)
    (img aud : JsFile) (hc : s.activeCountry = some c) (hi : s.imageFile = some img)
    (ha : s.audioFile = some aud) :
    handleUpload true uuid net s =
      uploadSteps uuid net c img aud { s with error := "", uploading := true } := by
  simp [handleUpload, hc, hi, ha]

lemma uploadSteps_imgFail (uuid : String) (net : Net) (c : Country) (img aud : JsFile)
    (s : UploadState) (m : String) (h : net.imgUploadErr = some m) :
    uploadSteps uuid net c img aud s =
      ({ s with error := surfaced m, uploading := false },
        [NetOp.uploadImage (imgObjectPath c.code s.title uuid img.name)]) := by
  simp [uploadSteps, h]

lemma uploadSteps_audFail (uuid : String) (net : Net) (c : Country) (img aud : JsFile)
    (s : UploadState) (m : String) (h1 : net.imgUploadErr = none)
    (h2 : net.audUploadErr = some m) :
    uploadSteps uuid net c img aud s =
      ({ s with error := surfaced m, uploading := false },
        [NetOp.uploadImage (imgObjectPath c.code s.title uuid img.name),
         NetOp.uploadAudio (audObjectPath c.code s.title uuid aud.name)]) := by
  simp [uploadSteps, h1, h2]

lemma uploadSteps_insertFail (uuid : String) (net : Net) (c : Country) (img aud : JsFile)
    (s : UploadState) (m : String) (h1 : net.imgUploadErr = none)
    (h2 : net.audUploadErr = none) (h3 : net.insertErr = some m) :
    uploadSteps uuid net c img aud s =
      ({ s with error := surfaced m, uploading := false },
        [NetOp.uploadImage (imgObjectPath c.code s.title uuid img.name),
         NetOp.uploadAudio (audObjectPath c.code s.title uuid aud.name),
         NetOp.insertRow (rowOf net c s.title s.info uuid img.name aud.name)]) := by
  simp [uploadSteps, h1, h2, h3]

lemma uploadSteps_success (uuid : String) (net : Net) (c : Country) (img aud : JsFile)
    (s : UploadState) (h1 : net.imgUploadErr = none) (h2 : net.audUploadErr = none)
    (h3 : net.insertErr = none) :
    uploadSteps uuid net c img aud s =
      ({ s with title := "", info := "", imageFile := none, audioFile := none,
                entries := net.refreshData.getD [], showForm := false,
                uploading := false },
        [NetOp.uploadImage (imgObjectPath c.code s.title uuid img.name),
         NetOp.uploadAudio (audObjectPath c.code s.title uuid aud.name),
         NetOp.insertRow (rowOf net c s.title s.info uuid img.name aud.name),
         NetOp.selectEntries]) := by
  simp [uploadSteps, h1, h2, h3]

lemma countryEntries_mem_of_mem (ac : Option Country) (entries : List Entry) (r : Entry)
    (h : r ∈ countryEntries ac entries) : r ∈ entries := by
  cases ac with
  | none => simp [countryEntries] at h
  | some c => exact (List.mem_filter.mp h).1

/-! ## Properties of `splitDot` and `extOrDefault` -/

lemma splitDot_ne_nil (l : List Char) : splitDot l ≠ [] := by
  cases l with
  | nil => simp [splitDot]
  | cons c cs =>
    simp only [splitDot]
    cases h : splitDot cs with
    | nil => simp
    | cons seg rest => by_cases hc : c = '.' <;> simp [hc]

lemma splitDot_noDot (l : List Char) (h : '.' ∉ l) : splitDot l = [l] := by
  induction l with
  | nil => rfl
  | cons c cs ih =>
    rw [List.mem_cons, not_or] at h
    obtain ⟨h1, h2⟩ := h
    simp only [splitDot, ih h2]
    have hc : ¬ c = '.' := fun e => h1 e.symm
    simp [hc]

lemma splitDot_append (xs ys : List Char) :
    splitDot (xs ++ '.' :: ys) = splitDot xs ++ splitDot ys := by
  induction xs with
  | nil =>
    simp only [List.nil_append, splitDot]
    cases h : splitDot ys with
    | nil => exact absurd h (splitDot_ne_nil ys)
    | cons seg rest => simp
  | cons x xs ih =>
    cases h : splitDot xs with
    | nil => exact absurd h (splitDot_ne_nil xs)
    | cons seg rest =>
      by_cases hx : x = '.' <;>
        simp [splitDot, List.cons_append, ih, h, hx]

lemma getLastD_append_right (l₁ l₂ : List (List Char)) (h : l₂ ≠ []) :
    (l₁ ++ l₂).getLastD [] = l₂.getLastD [] := by
  rw [List.getLastD_eq_getLast?, List.getLastD_eq_getLast?, List.getLast?_append]
  cases hl : l₂.getLast? with
  | none => exact absurd (by simpa using hl) h
  | some x => rfl

lemma data_eq_nil_iff (s : String) : s.data = [] ↔ s = "" :=
  ⟨fun h => String.ext h, fun h => by rw [h]⟩

/-- When the file name contains no `.`, JavaScript
`name.split('.').pop()` is the whole name, so the default is used only
for the empty name. -/
lemma extOrDefault_noDot (n d : String) (h : '.' ∉ n.data) :
    extOrDefault n d = if n = "" then d else n := by
  unfold extOrDefault
  rw [splitDot_noDot n.data h]
  by_cases hn : n = ""
  · subst hn; simp [List.getLastD]
  · have hd : n.data ≠ [] := fun e => hn ((data_eq_nil_iff n).mp e)
    simp only [List.getLastD, List.isEmpty_iff, hd, if_neg, hn]
    simp [hd, String.ext_iff]

/-- When the file name is `stem.ext` with a dot-free `ext`, JavaScript
`name.split('.').pop()` is exactly `ext`, so the default is used only
when the name ends in `.`. -/
lemma extOrDefault_lastSeg (a b d : String) (h : '.' ∉ b.data) :
    extOrDefault (a ++ "." ++ b) d = if b = "" then d else b := by
  unfold extOrDefault
  have hdata : (a ++ "." ++ b).data = a.data ++ '.' :: b.data := by
    simp [String.data_append]
  rw [hdata, splitDot_append, splitDot_noDot b.data h,
    getLastD_append_right _ _ (by simp)]
  by_cases hb : b = ""
  · subst hb; simp [List.getLastD]
  · have hd : b.data ≠ [] := fun e => hb ((data_eq_nil_iff b).mp e)
    simp only [List.getLastD, List.isEmpty_iff, hd, if_neg, hb]
    simp [hd, String.ext_iff]

lemma allowedChar_safeChar (c : Char) : allowedChar (safeChar c) = true := by
  unfold safeChar
  split
  · assumption
  · decide

lemma firstNonEmpty_cons (v : Option String) (rest : List (Option String)) (dflt : String) :
    firstNonEmpty (v :: rest) dflt = jsOr v (firstNonEmpty rest dflt) := by
  cases v <;> rfl

lemma surfaced_eq (m : String) (hm : m ≠ "") : surfaced m = m := if_neg hm

lemma msgNotConfigured_ne_empty : msgNotConfigured ≠ "" := by decide

lemma msgNoCountry_ne_empty : msgNoCountry ≠ "" := by decide

lemma msgMissingFiles_ne_empty : msgMissingFiles ≠ "" := by decide

lemma uploadSteps_trace_head (uuid : String) (net : Net) (c : Country) (img aud : JsFile)
    (s : UploadState) :
    (uploadSteps uuid net c img aud s).2.head? =
      some (NetOp.uploadImage (imgObjectPath c.code s.title uuid img.name)) := by
  cases h1 : net.imgUploadErr with
  | some m => simp [uploadSteps, h1]
  | none =>
    cases h2 : net.audUploadErr with
    | some m => simp [uploadSteps, h1, h2]
    | none => cases h3 : net.insertErr <;> simp [uploadSteps, h1, h2, h3]

/-! ## More concrete fixtures -/

/-- Persisted entry with `country_code = "DE"`, oldest. -/
def entryDE1 : Entry :=
  { id := "e1", country_code := "DE", title := none, info := none,
    image_url := none, audio_url := none, created_at := 1 }

/-- Persisted entry with `country_code = "FR"`. -/
def entryFR : Entry :=
  { id := "e2", country_code := "FR", title := none, info := none,
    image_url := none, audio_url := none, created_at := 2 }

/-- Persisted entry with `country_code = "DE"`, newest. -/
def entryDE2 : Entry :=
  { id := "e3", country_code := "DE", title := none, info := none,
    image_url := none, audio_url := none, created_at := 3 }

/-- A backend whose image upload fails. -/
def netImgFail : Net := { netSuccess with imgUploadErr := some "image upload failed" }

/-- A backend whose row insert fails after both uploads succeed. -/
def netInsertFail : Net := { netSuccess with insertErr := some "row insert failed" }

/-- The Japan form with the audio file missing. -/
def formNoAudio : UploadState := { formJP with audioFile := none }

/-! ## Claims -/

/-- C4: `filterByCountry` (the `countryEntries` view) is pure and
synchronous (a total function): with no selection it returns `[]` for
every entries list; with a selected country it returns a subsequence of
the entries list (hence preserving relative order) whose members are
exactly the entries with matching `country_code`; and on a store with
codes `["DE","FR","DE"]` the query `"DE"` returns the two matching
records in original order while `"JP"` returns the empty sequence. -/
theorem filterByCountry_spec :
    (∀ entries : List Entry, countryEntries none entries = []) ∧
    (∀ (c : Country) (entries : List Entry),
      List.Sublist (countryEntries (some c) entries) entries ∧
      ∀ e : Entry,
        e ∈ countryEntries (some c) entries ↔ e ∈ entries ∧ e.country_code = c.code) ∧
    countryEntries (some { code := "DE", name := "Deutschland" })
      [entryDE1, entryFR, entryDE2] = [entryDE1, entryDE2] ∧
    countryEntries (some { code := "JP", name := "Japan" })
      [entryDE1, entryFR, entryDE2] = [] := by
  refine ⟨fun _ => rfl,
    fun c entries => ⟨List.filter_sublist entries, fun e => ?_⟩, by decide, by decide⟩
  simp [countryEntries]

/-- C8: the country resolver is pure and total; its `code` is the first
non-empty value among the ordered keys `ISO_A2_EH`, `ISO_A2` with
default `""`, and its `name` is the first non-empty value among the
ordered keys `NAME`, `ADMIN`, `NAME_LONG` with default `"Unbenannt"`;
in particular both fall back to their defaults when every candidate is
absent or empty. -/
theorem countryResolver_spec (p : GeoProps) :
    resolveCode p = firstNonEmpty [p.ISO_A2_EH, p.ISO_A2] "" ∧
    resolveName p = firstNonEmpty [p.NAME, p.ADMIN, p.NAME_LONG] "Unbenannt" ∧
    (p.ISO_A2_EH.getD "" = "" → p.ISO_A2.getD "" = "" → resolveCode p = "") ∧
    (p.NAME.getD "" = "" → p.ADMIN.getD "" = "" → p.NAME_LONG.getD "" = "" →
      resolveName p = "Unbenannt") := by
  refine ⟨?_, ?_, ?_, ?_⟩
  · simp [resolveCode, jsOr, firstNonEmpty]
  · simp [resolveName, jsOr, firstNonEmpty]
  · intro h1 h2
    cases hA : p.ISO_A2_EH <;> cases hB : p.ISO_A2 <;>
      rw [hA] at h1 <;> rw [hB] at h2 <;> simp_all [resolveCode, jsOr]
  · intro h1 h2 h3
    cases hA : p.NAME <;> cases hB : p.ADMIN <;> cases hC : p.NAME_LONG <;>
      rw [hA] at h1 <;> rw [hB] at h2 <;> rw [hC] at h3 <;>
      simp_all [resolveName, jsOr]

/-- A property bag whose country-code and name keys are all absent or
empty. -/
def bagEmpty : GeoProps :=
  { ISO_A2_EH := none, ISO_A2 := some "", NAME := none, ADMIN := none,
    NAME_LONG := some "" }

/-- C8 witness: a property bag with every name key absent or empty
resolves to `name = "Unbenannt"` and `code = ""`. -/
theorem countryResolver_spec_witness :
    resolveCode bagEmpty = "" ∧ resolveName bagEmpty = "Unbenannt" :=
  ⟨(countryResolver_spec bagEmpty).2.2.1 rfl rfl,
   (countryResolver_spec bagEmpty).2.2.2 rfl rfl rfl⟩

/-- C6: `safeName` lowercases its input and replaces every character
outside `[a-z0-9-_.]` with `-`, so every output character lies in that
class; on `"Côte d'Ivoire!! 2024"` it yields `"c-te-d-ivoire---2024"`;
and whenever the pipeline reaches its upload steps, the first uploaded
object's name is built from `safeName` applied to the concatenation of
country code, title (or the placeholder `"upload"`), and the
identifier. -/
theorem safeName_spec :
    (∀ (s : String) (c : Char), c ∈ (safeName s).data → allowedChar c = true) ∧
    safeName "Côte d'Ivoire!! 2024" = "c-te-d-ivoire---2024" ∧
    (∀ (uuid : String) (net : Net) (s : UploadState) (c : Country) (img aud : JsFile),
      s.activeCountry = some c → s.imageFile = some img → s.audioFile = some aud →
      (handleUpload true uuid net s).2.head? =
        some (NetOp.uploadImage
          (safeName (c.code ++ "-" ++ (if s.title = "" then "upload" else s.title)
              ++ "-" ++ uuid)
            ++ "." ++ extOrDefault img.name "jpg"))) := by
  refine ⟨?_, by decide, ?_⟩
  · intro s c hc
    simp only [safeName, List.mem_map] at hc
    obtain ⟨a, -, rfl⟩ := hc
    exact allowedChar_safeChar a
  · intro uuid net s c img aud hc hi ha
    rw [handleUpload_go uuid net s c img aud hc hi ha, uploadSteps_trace_head]
    simp [imgObjectPath, baseNameOf]

/-- C6 witness: the Japan submission's first network call uploads an
object named from the sanitized base. -/
theorem safeName_spec_witness :
    (handleUpload true "u6" netSuccess formJP).2.head? =
      some (NetOp.uploadImage
        (safeName ("JP" ++ "-" ++ (if ("Song" : String) = "" then "upload" else "Song")
            ++ "-" ++ "u6")
          ++ "." ++ extOrDefault "photo.png" "jpg")) :=
  safeName_spec.2.2 "u6" netSuccess formJP { code := "JP", name := "Japan" }
    { name := "photo.png" } { name := "song.mp3" } rfl rfl rfl

/-- C5: on the initial load, a backend error is logged, the in-memory
list is left empty and the loading flag cleared (and `load` is a total
function, so nothing is thrown); on success the list is replaced
wholesale by the fetched rows, which the backend returns sorted by
`created_at` descending (a permutation of the table). -/
theorem loadAll_spec (res : QueryResult) (st : LoadState) (msg : String)
    (table : List Entry) :
    (res.error = some msg → res.data = none →
      (load true res st).1.entries = [] ∧ (load true res st).1.loading = false ∧
      (load true res st).2 = [msg]) ∧
    (res.error = none → res.data = some (orderByCreatedAtDesc table) →
      (load true res st).1.entries = orderByCreatedAtDesc table ∧
      (load true res st).1.loading = false ∧
      (load true res st).2 = [] ∧
      List.Sorted createdDesc (load true res st).1.entries ∧
      List.Perm (load true res st).1.entries table) := by
  constructor
  · intro he hd
    refine ⟨?_, ?_, ?_⟩ <;> simp [load, he, hd]
  · intro he hd
    have hent : (load true res st).1.entries = orderByCreatedAtDesc table := by
      simp [load, hd]
    refine ⟨hent, by simp [load], by simp [load, he], ?_, ?_⟩
    · rw [hent]
      exact List.sorted_insertionSort createdDesc table
    · rw [hent]
      exact List.perm_insertionSort createdDesc table

/-- C5 witness: a failed query leaves an empty list, clears `loading`
and logs the message; a successful sorted query replaces the list. -/
theorem loadAll_spec_witness :
    (load true { data := none, error := some "boom" }
        { entries := [entryFR], loading := true }).1.entries = [] ∧
    (load true { data := some (orderByCreatedAtDesc [entryDE1, entryFR]), error := none }
        { entries := [], loading := true }).1.entries =
      orderByCreatedAtDesc [entryDE1, entryFR] :=
  ⟨((loadAll_spec { data := none, error := some "boom" }
      { entries := [entryFR], loading := true } "boom" []).1 rfl rfl).1,
   ((loadAll_spec { data := some (orderByCreatedAtDesc [entryDE1, entryFR]), error := none }
      { entries := [], loading := true } "boom" [entryDE1, entryFR]).2 rfl rfl).1⟩

/-- C2: `handleUpload` checks its three preconditions in order — client
configured, country selected, both files present — each failure sets
its own distinct error message and issues zero network calls; the
configured check dominates the country check, which dominates the file
check. -/
theorem submit_preconditions (uuid : String) (net : Net) (s : UploadState) :
    ((handleUpload false uuid net s).1.error = msgNotConfigured ∧
      (handleUpload false uuid net s).2 = []) ∧
    (s.activeCountry = none →
      (handleUpload true uuid net s).1.error = msgNoCountry ∧
      (handleUpload true uuid net s).2 = []) ∧
    (∀ c : Country, s.activeCountry = some c →
      s.imageFile = none ∨ s.audioFile = none →
      (handleUpload true uuid net s).1.error = msgMissingFiles ∧
      (handleUpload true uuid net s).2 = []) ∧
    (msgNotConfigured ≠ msgNoCountry ∧ msgNotConfigured ≠ msgMissingFiles ∧
      msgNoCountry ≠ msgMissingFiles) := by
  refine ⟨?_, ?_, ?_, by decide⟩
  · rw [handleUpload_notConfigured]
    exact ⟨rfl, rfl⟩
  · intro h
    rw [handleUpload_noCountry uuid net s h]
    exact ⟨rfl, rfl⟩
  · intro c hc h
    rw [handleUpload_missingFile uuid net s c hc h]
    exact ⟨rfl, rfl⟩

/-- C2 witness: submitting with a country and an image but no audio
file fails with the missing-asset message and issues zero network
calls. -/
theorem submit_preconditions_witness :
    (handleUpload true "u2" netSuccess formNoAudio).1.error = msgMissingFiles ∧
    (handleUpload true "u2" netSuccess formNoAudio).2 = [] :=
  (submit_preconditions "u2" netSuccess formNoAudio).2.2.1
    { code := "JP", name := "Japan" } rfl (Or.inr rfl)

/-- C1: when one of the three sequential network steps fails (with a
non-empty backend message `m`), no later step is attempted, `m` becomes
the form's error text, and no `deleteObject` call is ever issued; when
the row insert fails after both uploads, the refresh select is not
issued, the entries list is unchanged, and a record absent before the
run does not appear in the filtered country view. -/
theorem uploadPipeline_failureAborts (uuid : String) (net : Net) (s : UploadState)
    (c : Country) (img aud : JsFile) (m : String)
    (hc : s.activeCountry = some c) (hi : s.imageFile = some img)
    (ha : s.audioFile = some aud) (hm : m ≠ "") :
    (net.imgUploadErr = some m →
      (handleUpload true uuid net s).1.error = m ∧
      (handleUpload true uuid net s).2 =
        [NetOp.uploadImage (imgObjectPath c.code s.title uuid img.name)] ∧
      (∀ b p, NetOp.deleteObject b p ∉ (handleUpload true uuid net s).2)) ∧
    (net.imgUploadErr = none → net.audUploadErr = some m →
      (handleUpload true uuid net s).1.error = m ∧
      (handleUpload true uuid net s).2 =
        [NetOp.uploadImage (imgObjectPath c.code s.title uuid img.name),
         NetOp.uploadAudio (audObjectPath c.code s.title uuid aud.name)] ∧
      (∀ b p, NetOp.deleteObject b p ∉ (handleUpload true uuid net s).2)) ∧
    (net.imgUploadErr = none → net.audUploadErr = none → net.insertErr = some m →
      (handleUpload true uuid net s).1.error = m ∧
      (handleUpload true uuid net s).2 =
        [NetOp.uploadImage (imgObjectPath c.code s.title uuid img.name),
         NetOp.uploadAudio (audObjectPath c.code s.title uuid aud.name),
         NetOp.insertRow (rowOf net c s.title s.info uuid img.name aud.name)] ∧
      NetOp.selectEntries ∉ (handleUpload true uuid net s).2 ∧
      (∀ b p, NetOp.deleteObject b p ∉ (handleUpload true uuid net s).2) ∧
      (handleUpload true uuid net s).1.entries = s.entries ∧
      (∀ r : Entry, r ∉ s.entries →
        r ∉ countryEntries (handleUpload true uuid net s).1.activeCountry
            (handleUpload true uuid net s).1.entries)) := by
  refine ⟨?_, ?_, ?_⟩
  · intro h1
    rw [handleUpload_go uuid net s c img aud hc hi ha,
      uploadSteps_imgFail uuid net c img aud _ m h1]
    refine ⟨surfaced_eq m hm, rfl, ?_⟩
    intro b p
    simp
  · intro h1 h2
    rw [handleUpload_go uuid net s c img aud hc hi ha,
      uploadSteps_audFail uuid net c img aud _ m h1 h2]
    refine ⟨surfaced_eq m hm, rfl, ?_⟩
    intro b p
    simp
  · intro h1 h2 h3
    rw [handleUpload_go uuid net s c img aud hc hi ha,
      uploadSteps_insertFail uuid net c img aud _ m h1 h2 h3]
    refine ⟨surfaced_eq m hm, rfl, by simp, fun b p => by simp, rfl, ?_⟩
    intro r hr hmem
    exact hr (countryEntries_mem_of_mem _ _ _ hmem)

/-- C1 witness: a concrete run whose row insert fails surfaces the
insert's message and leaves the entries list untouched. -/
theorem uploadPipeline_failureAborts_witness :
    (handleUpload true "u1" netInsertFail formJP).1.error = "row insert failed" ∧
    (handleUpload true "u1" netInsertFail formJP).1.entries = formJP.entries ∧
    NetOp.selectEntries ∉ (handleUpload true "u1" netInsertFail formJP).2 :=
  ⟨((uploadPipeline_failureAborts "u1" netInsertFail formJP
      { code := "JP", name := "Japan" } { name := "photo.png" } { name := "song.mp3" }
      "row insert failed" rfl rfl rfl (by decide)).2.2 rfl rfl rfl).1,
   ((uploadPipeline_failureAborts "u1" netInsertFail formJP
      { code := "JP", name := "Japan" } { name := "photo.png" } { name := "song.mp3" }
      "row insert failed" rfl rfl rfl (by decide)).2.2 rfl rfl rfl).2.2.2.2.1,
   ((uploadPipeline_failureAborts "u1" netInsertFail formJP
      { code := "JP", name := "Japan" } { name := "photo.png" } { name := "song.mp3" }
      "row insert failed" rfl rfl rfl (by decide)).2.2 rfl rfl rfl).2.2.1⟩

/-- C9: every failing run of `handleUpload` (its result carries a
non-empty error text) leaves the title, info, image file, audio file
and the form's visibility unchanged; the fields are cleared only on the
success path, which requires the row insert to have succeeded. -/
theorem submit_failure_frame (configured : Bool) (uuid : String) (net : Net)
    (s : UploadState) :
    ((handleUpload configured uuid net s).1.error ≠ "" →
      (handleUpload configured uuid net s).1.title = s.title ∧
      (handleUpload configured uuid net s).1.info = s.info ∧
      (handleUpload configured uuid net s).1.imageFile = s.imageFile ∧
      (handleUpload configured uuid net s).1.audioFile = s.audioFile ∧
      (handleUpload configured uuid net s).1.showForm = s.showForm) ∧
    ((handleUpload configured uuid net s).1.error = "" →
      (handleUpload configured uuid net s).1.title = "" ∧
      (handleUpload configured uuid net s).1.info = "" ∧
      (handleUpload configured uuid net s).1.imageFile = none ∧
      (handleUpload configured uuid net s).1.audioFile = none ∧
      net.insertErr = none) := by
  cases configured with
  | false =>
    rw [handleUpload_notConfigured]
    exact ⟨fun _ => ⟨rfl, rfl, rfl, rfl, rfl⟩, fun h => absurd h msgNotConfigured_ne_empty⟩
  | true =>
    cases hac : s.activeCountry with
    | none =>
      rw [handleUpload_noCountry uuid net s hac]
      exact ⟨fun _ => ⟨rfl, rfl, rfl, rfl, rfl⟩, fun h => absurd h msgNoCountry_ne_empty⟩
    | some c =>
      cases hi : s.imageFile with
      | none =>
        rw [handleUpload_missingFile uuid net s c hac (Or.inl hi)]
        exact ⟨fun _ => ⟨rfl, rfl, hi, rfl, rfl⟩, fun h => absurd h msgMissingFiles_ne_empty⟩
      | some img =>
        cases ha : s.audioFile with
        | none =>
          rw [handleUpload_missingFile uuid net s c hac (Or.inr ha)]
          exact ⟨fun _ => ⟨rfl, rfl, hi, ha, rfl⟩, fun h => absurd h msgMissingFiles_ne_empty⟩
        | some aud =>
          rw [handleUpload_go uuid net s c img aud hac hi ha]
          cases h1 : net.imgUploadErr with
          | some m =>
            rw [uploadSteps_imgFail uuid net c img aud _ m h1]
            exact ⟨fun _ => ⟨rfl, rfl, hi, ha, rfl⟩,
              fun h => absurd h (surfaced_ne_empty m)⟩
          | none =>
            cases h2 : net.audUploadErr with
            | some m =>
              rw [uploadSteps_audFail uuid net c img aud _ m h1 h2]
              exact ⟨fun _ => ⟨rfl, rfl, hi, ha, rfl⟩,
                fun h => absurd h (surfaced_ne_empty m)⟩
            | none =>
              cases h3 : net.insertErr with
              | some m =>
                rw [uploadSteps_insertFail uuid net c img aud _ m h1 h2 h3]
                exact ⟨fun _ => ⟨rfl, rfl, hi, ha, rfl⟩,
                  fun h => absurd h (surfaced_ne_empty m)⟩
              | none =>
                rw [uploadSteps_success uuid net c img aud _ h1 h2 h3]
                exact ⟨fun h => absurd rfl h, fun _ => ⟨rfl, rfl, rfl, rfl, rfl⟩⟩

/-- C9 witness: a run whose image upload fails keeps every field and
the open form. -/
theorem submit_failure_frame_witness :
    (handleUpload true "u9" netImgFail formJP).1.title = formJP.title ∧
    (handleUpload true "u9" netImgFail formJP).1.audioFile = formJP.audioFile ∧
    (handleUpload true "u9" netImgFail formJP).1.showForm = formJP.showForm :=
  ⟨((submit_failure_frame true "u9" netImgFail formJP).1 (by decide)).1,
   ((submit_failure_frame true "u9" netImgFail formJP).1 (by decide)).2.2.2.1,
   ((submit_failure_frame true "u9" netImgFail formJP).1 (by decide)).2.2.2.2⟩

/-- C10: when the row insert succeeds but the refresh select returns no
data, the submission still completes as a success — no error text, the
fields cleared, the form closed — while the in-memory entries list
becomes empty; the refresh call's error component is never examined, so
the outcome is independent of it. -/
theorem submit_refreshFailure_ignored (uuid : String) (net : Net) (s : UploadState)
    (c : Country) (img aud : JsFile)
    (hc : s.activeCountry = some c) (hi : s.imageFile = some img)
    (ha : s.audioFile = some aud)
    (h1 : net.imgUploadErr = none) (h2 : net.audUploadErr = none)
    (h3 : net.insertErr = none) (h4 : net.refreshData = none) :
    (handleUpload true uuid net s).1.error = "" ∧
    (handleUpload true uuid net s).1.title = "" ∧
    (handleUpload true uuid net s).1.info = "" ∧
    (handleUpload true uuid net s).1.imageFile = none ∧
    (handleUpload true uuid net s).1.audioFile = none ∧
    (handleUpload true uuid net s).1.showForm = false ∧
    (handleUpload true uuid net s).1.entries = [] ∧
    (∀ e1 e2 : Option String,
      handleUpload true uuid { net with refreshErr := e1 } s =
        handleUpload true uuid { net with refreshErr := e2 } s) := by
  rw [handleUpload_go uuid net s c img aud hc hi ha,
    uploadSteps_success uuid net c img aud _ h1 h2 h3]
  refine ⟨rfl, rfl, rfl, rfl, rfl, rfl, by simp [h4], ?_⟩
  intro e1 e2
  rw [handleUpload_go uuid _ s c img aud hc hi ha,
    handleUpload_go uuid _ s c img aud hc hi ha,
    uploadSteps_success uuid _ c img aud _ (by simp [h1]) (by simp [h2]) (by simp [h3]),
    uploadSteps_success uuid _ c img aud _ (by simp [h1]) (by simp [h2]) (by simp [h3])]
  simp [rowOf, imgObjectPath, audObjectPath]

/-- C10 witness: the all-success run with an empty refresh closes the
form with no error and an empty list. -/
theorem submit_refreshFailure_ignored_witness :
    (handleUpload true "u10" netSuccess formJP).1.error = "" ∧
    (handleUpload true "u10" netSuccess formJP).1.showForm = false ∧
    (handleUpload true "u10" netSuccess formJP).1.entries = [] :=
  ⟨(submit_refreshFailure_ignored "u10" netSuccess formJP
      { code := "JP", name := "Japan" } { name := "photo.png" } { name := "song.mp3" }
      rfl rfl rfl rfl rfl rfl rfl).1,
   (submit_refreshFailure_ignored "u10" netSuccess formJP
      { code := "JP", name := "Japan" } { name := "photo.png" } { name := "song.mp3" }
      rfl rfl rfl rfl rfl rfl rfl).2.2.2.2.2.1,
   (submit_refreshFailure_ignored "u10" netSuccess formJP
      { code := "JP", name := "Japan" } { name := "photo.png" } { name := "song.mp3" }
      rfl rfl rfl rfl rfl rfl rfl).2.2.2.2.2.2.1⟩

/-- C3 counterexample: in a concrete all-success run with client
identifier `"0000-aaaa"`, the only inserted row carries no `id` field
(the `InsertRow` payload has none), so the persisted row's primary key
is the server default — here `"1111-bbbb"` — and not the client
identifier, refuting "that same identifier is used as the inserted
row's primary key". -/
theorem uploadPipeline_id_not_rowKey_cex :
    (handleUpload true "0000-aaaa" netSuccess formJP).2 =
      [NetOp.uploadImage "jp-song-0000-aaaa.png",
       NetOp.uploadAudio "jp-song-0000-aaaa.mp3",
       NetOp.insertRow
         { country_code := "JP", title := some "Song", info := none,
           image_url := "https://example.com/images/jp-song-0000-aaaa.png",
           audio_url := "https://example.com/audio/jp-song-0000-aaaa.mp3" },
       NetOp.selectEntries] ∧
    (insertEntry
        { country_code := "JP", title := some "Song", info := none,
          image_url := "https://example.com/images/jp-song-0000-aaaa.png",
          audio_url := "https://example.com/audio/jp-song-0000-aaaa.mp3" }
        "1111-bbbb" 7).id = "1111-bbbb" ∧
    ("1111-bbbb" : String) ≠ "0000-aaaa" := by
  refine ⟨by decide, rfl, by decide⟩

/-- C3 (amended): the identifier is generated client-side once, before
any network call, and both uploaded object names are derived from it
(through the sanitized base name); but the insert payload omits the
identifier, so the persisted row's primary key is whatever the server
assigns, not the client identifier. -/
theorem uploadPipeline_id_amended (uuid : String) (net : Net) (s : UploadState)
    (c : Country) (img aud : JsFile)
    (hc : s.activeCountry = some c) (hi : s.imageFile = some img)
    (ha : s.audioFile = some aud)
    (h1 : net.imgUploadErr = none) (h2 : net.audUploadErr = none)
    (h3 : net.insertErr = none) :
    (handleUpload true uuid net s).2 =
      [NetOp.uploadImage (imgObjectPath c.code s.title uuid img.name),
       NetOp.uploadAudio (audObjectPath c.code s.title uuid aud.name),
       NetOp.insertRow (rowOf net c s.title s.info uuid img.name aud.name),
       NetOp.selectEntries] ∧
    imgObjectPath c.code s.title uuid img.name =
      baseNameOf c.code s.title uuid ++ "." ++ extOrDefault img.name "jpg" ∧
    audObjectPath c.code s.title uuid aud.name =
      baseNameOf c.code s.title uuid ++ "." ++ extOrDefault aud.name "mp3" ∧
    (∀ (serverId : String) (now : Nat),
      (insertEntry (rowOf net c s.title s.info uuid img.name aud.name) serverId now).id =
        serverId) := by
  rw [handleUpload_go uuid net s c img aud hc hi ha,
    uploadSteps_success uuid net c img aud _ h1 h2 h3]
  exact ⟨rfl, rfl, rfl, fun _ _ => rfl⟩

/-- C3 witness: the amended statement at the concrete Japan run. -/
theorem uploadPipeline_id_amended_witness :
    (handleUpload true "u3" netSuccess formJP).2 =
      [NetOp.uploadImage (imgObjectPath "JP" "Song" "u3" "photo.png"),
       NetOp.uploadAudio (audObjectPath "JP" "Song" "u3" "song.mp3"),
       NetOp.insertRow (rowOf netSuccess { code := "JP", name := "Japan" }
         "Song" "" "u3" "photo.png" "song.mp3"),
       NetOp.selectEntries] :=
  (uploadPipeline_id_amended "u3" netSuccess formJP { code := "JP", name := "Japan" }
    { name := "photo.png" } { name := "song.mp3" } rfl rfl rfl rfl rfl rfl).1

/-- C7 counterexample: an image file named `"photo"` — a name with no
extension — is uploaded as `{base}.photo`, not `{base}.jpg`: the `jpg`
default is not applied, refuting "or `jpg` when the file name has no
extension". -/
theorem uploadExtension_cex :
    (handleUpload true "id7" netSuccess formNoDot).2.head? =
      some (NetOp.uploadImage "jp-song-id7.photo") ∧
    ("jp-song-id7.photo" : String) ≠ "jp-song-id7.jpg" := by
  refine ⟨by decide, by decide⟩

/-- C7 (amended): the uploaded object names use, as extension, the last
`.`-separated segment of the original file name — which is the whole
name when it contains no dot — with `jpg`/`mp3` used only when that
segment is empty (the name is empty or ends in `.`). -/
theorem uploadExtension_amended (uuid : String) (net : Net) (s : UploadState)
    (c : Country) (img aud : JsFile)
    (hc : s.activeCountry = some c) (hi : s.imageFile = some img)
    (ha : s.audioFile = some aud) :
    (handleUpload true uuid net s).2.head? =
      some (NetOp.uploadImage
        (baseNameOf c.code s.title uuid ++ "." ++ extOrDefault img.name "jpg")) ∧
    (net.imgUploadErr = none →
      (handleUpload true uuid net s).2.tail.head? =
        some (NetOp.uploadAudio
          (baseNameOf c.code s.title uuid ++ "." ++ extOrDefault aud.name "mp3"))) ∧
    (∀ (n d : String), '.' ∉ n.data →
      extOrDefault n d = if n = "" then d else n) ∧
    (∀ (a b d : String), '.' ∉ b.data →
      extOrDefault (a ++ "." ++ b) d = if b = "" then d else b) := by
  refine ⟨?_, ?_, fun n d h => extOrDefault_noDot n d h,
    fun a b d h => extOrDefault_lastSeg a b d h⟩
  · rw [handleUpload_go uuid net s c img aud hc hi ha, uploadSteps_trace_head]
    simp [imgObjectPath]
  · intro h1
    rw [handleUpload_go uuid net s c img aud hc hi ha]
    cases h2 : net.audUploadErr with
    | some m =>
      rw [uploadSteps_audFail uuid net c img aud _ m h1 h2]
      simp [audObjectPath]
    | none =>
      cases h3 : net.insertErr with
      | some m =>
        rw [uploadSteps_insertFail uuid net c img aud _ m h1 h2 h3]
        simp [audObjectPath]
      | none =>
        rw [uploadSteps_success uuid net c img aud _ h1 h2 h3]
        simp [audObjectPath]

/-- C7 witness: the amended statement at the dot-free file name
`"photo"`: the first upload uses extension `photo`, and the extension
helper keeps the whole name. -/
theorem uploadExtension_amended_witness :
    (handleUpload true "u7" netSuccess formNoDot).2.head? =
      some (NetOp.uploadImage
        (baseNameOf "JP" "Song" "u7" ++ "." ++ extOrDefault "photo" "jpg")) ∧
    extOrDefault "photo" "jpg" = if ("photo" : String) = "" then "jpg" else "photo" :=
  ⟨(uploadExtension_amended "u7" netSuccess formNoDot { code := "JP", name := "Japan" }
      { name := "photo" } { name := "song.mp3" } rfl rfl rfl).1,
   (uploadExtension_amended "u7" netSuccess formNoDot { code := "JP", name := "Japan" }
      { name := "photo" } { name := "song.mp3" } rfl rfl rfl).2.2.1 "photo" "jpg"
      (by decide)⟩

end FabiansWelt
